import Mathlib

/-!
Shallow embedding of the changelog acquisition pipeline implemented in
`fetch-changelog.py` (functions `fetch_changelog`, `fetch_prs_from_github`,
`extract_changes_section`, `fetch_pr_description`, `format_prs_as_changelog`,
`save_changelog`).  Python strings are modelled as `List Char`; the network,
the environment token and the file system are modelled as explicit
environment records; `print` output is not modelled (only return values and
written rows are).
-/

set_option maxRecDepth 10000

namespace FetchChangelog

/-- Characters Python's `str.strip()` removes (ASCII whitespace). -/
def pyWs (c : Char) : Bool :=
  c = ' ' || c = '\t' || c = '\n' || c = '\r' || c = '\x0b' || c = '\x0c'

/-- Python `s.strip()`: remove leading and trailing whitespace. -/
def pyStrip (s : List Char) : List Char :=
  ((s.dropWhile pyWs).reverse.dropWhile pyWs).reverse

/-- Python `s.strip('<>')` as used on Link-header entries. -/
def isAngle (c : Char) : Bool := c = '<' || c = '>'

/-- Python `s.strip('<>')`: remove leading and trailing `<`/`>` characters. -/
def stripAngles (s : List Char) : List Char :=
  ((s.dropWhile isAngle).reverse.dropWhile isAngle).reverse

/-- Python `s.lower()` (ASCII case folding, as used on label names). -/
def pyLower (s : List Char) : List Char := s.map Char.toLower

/-- Index of the first occurrence of `pat` as a contiguous sublist of `s`
(Python `s.find(pat)` when it succeeds).  `some i` means `pat` is a prefix of
`s.drop i` and of no earlier suffix. -/
def findSub (pat : List Char) : List Char → Option Nat
  | [] => if pat.isPrefixOf ([] : List Char) then some 0 else none
  | c :: t =>
    if pat.isPrefixOf (c :: t) then some 0
    else (findSub pat t).map (· + 1)

/-- Python `pat in s` substring test. -/
def containsSub (pat s : List Char) : Bool := (findSub pat s).isSome

/-- Fuelled core of Python `s.split(sep)` for a non-empty separator. -/
def pySplitF (sep : List Char) : Nat → List Char → List (List Char)
  | 0, s => [s]
  | fuel + 1, s =>
    match findSub sep s with
    | none => [s]
    | some i =>
      if sep.length = 0 then [s]
      else s.take i :: pySplitF sep fuel (s.drop (i + sep.length))

/-- Python `s.split(sep)` (non-empty `sep`): split on every non-overlapping
occurrence of `sep`, left to right.  `s.length` steps of fuel always
suffice because every split consumes at least one character. -/
def pySplit (sep s : List Char) : List (List Char) := pySplitF sep s.length s

/-! ## Data model (`fetch-changelog.py`)

Issues, milestones and output rows as the script reads and writes them.
An issue's JSON object is reduced to the fields the script touches; the
`pull_request` flag models the presence of the `'pull_request'` key. -/

/-- A label object; the script reads only `label["name"]`. -/
structure Label where
  name : List Char
deriving DecidableEq

/-- An issue returned by the issues endpoint, reduced to the fields read by
`fetch_prs_from_github` and `format_prs_as_changelog`. -/
structure Issue where
  number : Nat
  title : List Char
  html_url : List Char
  labels : List Label
  pull_request : Bool
deriving DecidableEq

/-- A milestone object; the script reads `title` and `number`. -/
structure Milestone where
  title : List Char
  number : Nat
deriving DecidableEq

/-- One CSV row with the fixed six-column schema of `save_changelog`.
`ID := none` models the empty-string ID of the raw-changelog fallback row;
`ID := some n` models the integer PR id. -/
structure Row where
  ID : Option Nat
  Title : List Char
  Labels : List Char
  URL : List Char
  Description : List Char
  Ranking : List Char
deriving DecidableEq

/-- The query parameters of the first issues request
(`{"state": "closed", "milestone": str(n), "per_page": 100}`). -/
structure ReqParams where
  state : List Char
  milestone : List Char
  per_page : Nat
deriving DecidableEq

/-- The network serving the paginated issues endpoint: a URL and optional
query parameters (`none` models the cleared `params = {}` of follow-up
pages) map to a response body (the issues JSON) and the `Link` header, or
to `none` when the request fails (`raise_for_status` throwing). -/
def IssuesNet : Type := List Char → Option ReqParams → Option (List Issue × List Char)

/-- An HTTP response of the single-PR endpoint used by
`fetch_pr_description`: status code and JSON `body` field. -/
structure HttpResponse where
  status : Nat
  body : List Char
deriving DecidableEq

/-! ## VersionSectionLocator (`fetch_changelog`, lines 29-42) -/

/-- The generic section marker `"= "`. -/
def eqSpace : List Char := ['=', ' ']

/-- The literal marker `f"= {version} "` of line 30. -/
def versionMarker (version : List Char) : List Char :=
  eqSpace ++ version ++ [' ']

/-- Outcome of the version-section search inside `fetch_changelog`:
the extracted section, the `not in content` branch of line 31 (which
falls back to the GitHub API), or the dead `len(parts) < 2` branch of
line 37 (which returns `False`). -/
inductive LocateResult
  | found (txt : List Char)
  | notFound
  | splitError
deriving DecidableEq

/-- Lines 30-42 of `fetch_changelog`: `content.split(f"= {version} ")`,
then `parts[1].split("= ")[0].strip()`. -/
def locate_version_section (version content : List Char) : LocateResult :=
  if !(containsSub (versionMarker version) content) then .notFound
  else
    let parts := pySplit (versionMarker version) content
    if parts.length < 2 then .splitError
    else .found (pyStrip ((pySplit eqSpace (parts.getD 1 [])).headD []))

/-- Specification-side description of the claimed section: the text between
the end of the first occurrence of `"= {version} "` and the next occurrence
of `"= "` (or the end of the text), with nothing removed. -/
def sectionAfterMarker (version content : List Char) : List Char :=
  match findSub (versionMarker version) content with
  | none => []
  | some i =>
    let t := content.drop (i + (versionMarker version).length)
    match findSub eqSpace t with
    | none => t
    | some j => t.take j

/-- `s` cut at the first occurrence of `pat` (all of `s` when absent). -/
def takeUntilSub (pat s : List Char) : List Char :=
  match findSub pat s with
  | none => s
  | some j => s.take j

/-- The suffix of `s` after the first occurrence of `pat`, when present. -/
def afterSub (pat s : List Char) : Option (List Char) :=
  (findSub pat s).map (fun i => s.drop (i + pat.length))

/-! ## DescriptionEnricher (`extract_changes_section`, lines 154-177,
and `fetch_pr_description`, lines 179-202) -/

/-- Index of the first `'>'` in a list. -/
def findGtIdx : List Char → Option Nat
  | [] => none
  | c :: t => if c = '>' then some 0 else (findGtIdx t).map (· + 1)

/-- Fuelled scanner for `re.sub(r'<[^>]+>', '', s)`: at each `'<'`, the
leftmost match runs to the first following `'>'` provided at least one
non-`'>'` character stands between; `"<>"` does not match, and without any
`'>'` ahead no further match exists. -/
def stripTagsF : Nat → List Char → List Char
  | 0, s => s
  | _ + 1, [] => []
  | fuel + 1, c :: rest =>
    if c = '<' then
      match findGtIdx rest with
      | some j =>
        if 1 ≤ j then stripTagsF fuel (rest.drop (j + 1))
        else c :: stripTagsF fuel rest
      | none => c :: rest
    else c :: stripTagsF fuel rest

/-- `re.sub(r'<[^>]+>', '', s)` (line 160). -/
def stripTags (s : List Char) : List Char := stripTagsF s.length s

/-- Named entities handled by the model of `html.unescape`. -/
def entityTable : List (List Char × Char) :=
  [(("&amp;").data, '&'), (("&lt;").data, '<'), (("&gt;").data, '>'),
   (("&quot;").data, '"')]

/-- Fuelled scanner replacing HTML entities left to right. -/
def unescapeF : Nat → List Char → List Char
  | 0, s => s
  | _ + 1, [] => []
  | fuel + 1, c :: rest =>
    if c = '&' then
      match entityTable.find? (fun p => p.1.isPrefixOf (c :: rest)) with
      | some p => p.2 :: unescapeF fuel ((c :: rest).drop p.1.length)
      | none => c :: unescapeF fuel rest
    else c :: unescapeF fuel rest

/-- Models `html.unescape` from the Python standard library (line 162) for
a representative set of named entities; unknown ampersand runs are kept
verbatim. -/
def unescapeHtml (s : List Char) : List Char := unescapeF s.length s

/-- The literal start marker of the regex on line 165. -/
def changesMarker : List Char := ("Changes proposed in this Pull Request:").data

/-- The literal end marker (lookahead) of the regex on line 165. -/
def howToMarker : List Char :=
  ("How to test the changes in this Pull Request:").data

/-- `"<!--"`, the comment-opener tested by `line.startswith` on line 175. -/
def commentOpen : List Char := ("<!--").data

/-- `"-->"`, the comment-closer tested by `line.endswith` on line 175. -/
def commentClose : List Char := ("-->").data

/-- Lines 154-177.  The regex
`Changes proposed in this Pull Request:(.*?)(?=How to test the changes in
this Pull Request:|\Z)` with `re.DOTALL` matches at the first occurrence of
the start marker and lazily captures up to the first occurrence of the end
marker or the end of the text; the captured text is then split into lines,
each line stripped, empty and comment-delimiter lines dropped, and the rest
rejoined and stripped. -/
def extract_changes_section (description : List Char) : List Char :=
  if description = [] then []
  else
    let d := unescapeHtml (stripTags description)
    match findSub changesMarker d with
    | none => []
    | some i =>
      let captured := d.drop (i + changesMarker.length)
      let content :=
        match findSub howToMarker captured with
        | none => captured
        | some j => captured.take j
      let lines := (pySplit ['\n'] content).map pyStrip
      let kept := lines.filter (fun l =>
        !(l.isEmpty) && !(commentOpen.isPrefixOf l) && !(commentClose.isSuffixOf l))
      pyStrip (List.intercalate ['\n'] kept)

/-- Specification-side clean-up of a captured changes section: strip each
line, drop empty and comment-delimiter lines, rejoin, strip. -/
def cleanChangeLines (content : List Char) : List Char :=
  pyStrip (List.intercalate ['\n']
    (((pySplit ['\n'] content).map pyStrip).filter (fun l =>
      !(l.isEmpty) && !(commentOpen.isPrefixOf l) && !(commentClose.isSuffixOf l))))

/-- Lines 179-202, `fetch_pr_description`, with the network modelled as the
sequence of responses the server gives to the repeated identical request
(`net attempt` is the response to the `attempt`-th try).  Status 200
returns the extracted changes section; status 403 sleeps 60 seconds and
retries; any other status returns the empty string.  The result pairs the
returned string with the total seconds slept; `none` means the recursion
did not finish within `fuel` attempts. -/
def fetch_pr_description (net : Nat → HttpResponse) :
    Nat → Nat → Option (List Char × Nat)
  | _, 0 => none
  | attempt, fuel + 1 =>
    let r := net attempt
    if r.status = 200 then some (extract_changes_section r.body, 0)
    else if r.status = 403 then
      (fetch_pr_description net (attempt + 1) fuel).map (fun p => (p.1, 60 + p.2))
    else some ([], 0)

/-! ## PullRequestCollector (`fetch_prs_from_github`, lines 100-138) -/

/-- The pattern `'rel="next"'` searched inside each Link-header entry. -/
def relNextPat : List Char := ("rel=\"next\"").data

/-- Lines 121-131: parse the Link header.  Split on `','`; the first entry
containing `'rel="next"'` yields `entry.split(';')[0].strip('<>')`; with no
such entry (or an empty header) there is no next URL. -/
def parse_next_url (linkHeader : List Char) : Option (List Char) :=
  if linkHeader = [] then none
  else
    match (pySplit [','] linkHeader).find? (fun link => containsSub relNextPat link) with
    | none => none
    | some link => some (stripAngles ((pySplit [';'] link).headD []))

/-- Lines 100-138, the pagination loop.  Each iteration requests
`next_url`; a failing request (`raise_for_status`) aborts the whole
function (`some none`); an empty issues list stops with the accumulator;
otherwise the entries carrying a `'pull_request'` key are appended, the
Link header is parsed, and a missing (or empty) next URL stops.  The
query parameters are sent only with the first request (`params = {}`
afterwards).  `none` means the loop did not finish within `fuel` pages. -/
def collect_loop (net : IssuesNet) :
    Nat → List Char → Option ReqParams → List Issue → Option (Option (List Issue))
  | 0, _, _, _ => none
  | fuel + 1, url, ps, acc =>
    match net url ps with
    | none => some none
    | some (issues, linkHeader) =>
      if issues = [] then some (some acc)
      else
        let prs := issues.filter (fun issue => issue.pull_request)
        let acc2 := acc ++ prs
        match parse_next_url linkHeader with
        | none => some (some acc2)
        | some u =>
          if u = [] then some (some acc2)
          else collect_loop net fuel u none acc2

/-- One traversed page of a mocked paginated API: the URL it was requested
at, the issues it returned, and its Link header. -/
structure PageEntry where
  url : List Char
  issues : List Issue
  link : List Char

/-- A well-formed page chain for `net`: every entry is served at its URL
(the first with parameters `ps`, the rest with cleared parameters), every
non-final entry is non-empty and links to the next entry's non-empty URL,
and the final entry either returns no issues or carries no next link. -/
def chainOk (net : IssuesNet) : Option ReqParams → List PageEntry → Bool
  | _, [] => false
  | ps, [e] =>
    decide (net e.url ps = some (e.issues, e.link)) &&
      (e.issues.isEmpty ||
        decide (parse_next_url e.link = none) ||
        decide (parse_next_url e.link = some []))
  | ps, e :: e2 :: rest =>
    decide (net e.url ps = some (e.issues, e.link)) &&
      !(e.issues.isEmpty) &&
      decide (parse_next_url e.link = some e2.url) &&
      !(e2.url.isEmpty) &&
      chainOk net none (e2 :: rest)

/-! ## ChangelogRecordBuilder (`format_prs_as_changelog`, lines 204-223) -/

/-- `"plugin: woocommerce"`, the label removed case-insensitively. -/
def pluginLabelName : List Char := ("plugin: woocommerce").data

/-- `", "`, the label join separator. -/
def commaSpace : List Char := (", ").data

/-- Lines 204-223.  `descOf` stands for `fetch_pr_description(pr_id)`, the
enricher result per PR number. -/
def format_prs_as_changelog (descOf : Nat → List Char) (prs : List Issue) :
    List Row :=
  prs.map (fun pr =>
    { ID := some pr.number
      Title := pr.title
      Labels := List.intercalate commaSpace
        ((pr.labels.filter (fun l => !(pyLower l.name == pluginLabelName))).map Label.name)
      URL := pr.html_url
      Description := descOf pr.number
      Ranking := [] })

/-! ## TabularPersister (`save_changelog`, lines 225-253) -/

/-- The argument of `save_changelog`: a raw changelog string or the list of
rows built from PRs (the `isinstance(content, str)` test of line 231). -/
inductive ChangelogContent
  | text (s : List Char)
  | rows (rs : List Row)
deriving DecidableEq

/-- `f"Changelog for version {version}"` (line 234). -/
def changelogForVersionTitle (version : List Char) : List Char :=
  ("Changelog for version ").data ++ version

/-- Lines 230-241: the rows handed to the CSV writer. -/
def save_changelog_rows (version : List Char) : ChangelogContent → List Row
  | .text s =>
    [{ ID := none
       Title := changelogForVersionTitle version
       Labels := []
       URL := []
       Description := s
       Ranking := [] }]
  | .rows rs => rs

/-- Lines 225-253.  `writeOk` models whether the file write succeeds; on
failure the exception is caught, the error printed, and `False` returned
(line 252); on success the rows are on disk and `True` is returned.  The
second component is the written table (`none` when nothing valid was
written). -/
def save_changelog (writeOk : Bool) (version : List Char)
    (content : ChangelogContent) : Bool × Option (List Row) :=
  if writeOk then (true, some (save_changelog_rows version content))
  else (false, none)

/-! ## The pipeline functions -/

/-- Decimal rendering of `str(milestone_number)`. -/
def natToChars (n : Nat) : List Char := Nat.toDigits 10 n

/-- The issues endpoint URL of line 93. -/
def issuesUrl : List Char :=
  ("https://api.github.com/repos/woocommerce/woocommerce/issues").data

/-- The query parameters of lines 94-98. -/
def initialParams (milestone_number : Nat) : ReqParams :=
  { state := ("closed").data
    milestone := natToChars milestone_number
    per_page := 100 }

/-- The environment `fetch_prs_from_github` runs in: whether
`GITHUB_TOKEN` is set, the status and body of the milestones request, the
issues network, the per-PR enricher results, and whether the CSV write
succeeds. -/
structure Env where
  tokenSet : Bool
  milestonesStatus : Nat
  milestones : List Milestone
  issuesNet : IssuesNet
  descOf : Nat → List Char
  writeOk : Bool

/-- Lines 92-148 of `fetch_prs_from_github`, after a milestone number has
been resolved: paginate, fail when the loop fails or no PR was collected,
otherwise format and save.  Line 147 calls `save_changelog` and line 148
returns `True` without reading its result, so the first component is
`true` even when the write failed. -/
def fetch_prs_with_milestone (env : Env) (fuel : Nat) (version : List Char)
    (milestone_number : Nat) : Option (Bool × Option (List Row)) :=
  match collect_loop env.issuesNet fuel issuesUrl
      (some (initialParams milestone_number)) [] with
  | none => none
  | some none => some (false, none)
  | some (some all_prs) =>
    if all_prs = [] then some (false, none)
    else
      let changelog_rows := format_prs_as_changelog env.descOf all_prs
      let saved := save_changelog env.writeOk version (.rows changelog_rows)
      some (true, saved.2)

/-- Lines 55-152, `fetch_prs_from_github`.  Missing token, HTTP 403 on the
milestones request, any other failing status (`raise_for_status`), and an
unmatched or zero milestone number (`if not milestone_number`, line 85,
where Python treats `0` like `None`) all return `False`.  The overall
result is `none` when the pagination loop exceeds `fuel`. -/
def fetch_prs_from_github (env : Env) (fuel : Nat) (version : List Char) :
    Option (Bool × Option (List Row)) :=
  if !env.tokenSet then some (false, none)
  else if env.milestonesStatus = 403 then some (false, none)
  else if 400 ≤ env.milestonesStatus then some (false, none)
  else
    match (env.milestones.find? (fun m => m.title == version)).map Milestone.number with
    | none => some (false, none)
    | some n =>
      if n = 0 then some (false, none)
      else fetch_prs_with_milestone env fuel version n

/-- The environment of `fetch_changelog`: status and body of the raw
changelog GET, plus the GitHub environment of the fallback path. -/
structure WebEnv where
  changelogStatus : Nat
  changelogText : List Char
  gh : Env

/-- Lines 17-53, `fetch_changelog`.  A failing changelog GET returns
`False`; an absent version marker falls back to `fetch_prs_from_github`;
otherwise the located section is saved and `True` is returned on line 46
without reading `save_changelog`'s result. -/
def fetch_changelog (web : WebEnv) (fuel : Nat) (version : List Char) :
    Option (Bool × Option (List Row)) :=
  if 400 ≤ web.changelogStatus then some (false, none)
  else
    match locate_version_section version web.changelogText with
    | .notFound => fetch_prs_from_github web.gh fuel version
    | .splitError => some (false, none)
    | .found changelog_content =>
      let saved := save_changelog web.gh.writeOk version (.text changelog_content)
      some (true, saved.2)

/-! ## Concrete scenarios -/

/-- A PR-shaped issue (its JSON carries the `'pull_request'` key). -/
def mkPR (n : Nat) : Issue :=
  { number := n, title := [], html_url := [], labels := [], pull_request := true }

/-- A plain issue (no `'pull_request'` key). -/
def mkPlainIssue (n : Nat) : Issue :=
  { number := n, title := [], html_url := [], labels := [], pull_request := false }

/-- Page 1 of the mocked paginated API: 100 PR-shaped entries. -/
def scenarioPage1 : List Issue := (List.range 100).map mkPR

/-- Page 2: 100 PR-shaped entries. -/
def scenarioPage2 : List Issue := (List.range 100).map (fun n => mkPR (100 + n))

/-- Page 3: 37 PR-shaped entries. -/
def scenarioPage3 : List Issue := (List.range 37).map (fun n => mkPR (200 + n))

/-- URL of mocked page 2. -/
def urlPage2 : List Char := ("https://api.github.com/x?page=2").data

/-- URL of mocked page 3. -/
def urlPage3 : List Char := ("https://api.github.com/x?page=3").data

/-- Link header of page 1, carrying a `rel="next"` relation to page 2. -/
def linkToPage2 : List Char :=
  ("<https://api.github.com/x?page=2>; rel=\"next\", <https://api.github.com/x?page=3>; rel=\"last\"").data

/-- Link header of page 2, carrying a `rel="next"` relation to page 3. -/
def linkToPage3 : List Char :=
  ("<https://api.github.com/x?page=3>; rel=\"next\", <https://api.github.com/x?page=3>; rel=\"last\"").data

/-- Link header of page 3: no `rel="next"` relation. -/
def linkNoNext : List Char :=
  ("<https://api.github.com/x?page=2>; rel=\"prev\", <https://api.github.com/x?page=1>; rel=\"first\"").data

/-- The mocked three-page network of sizes [100, 100, 37]. -/
def scenarioNet : IssuesNet := fun url _ =>
  if url = issuesUrl then some (scenarioPage1, linkToPage2)
  else if url = urlPage2 then some (scenarioPage2, linkToPage3)
  else if url = urlPage3 then some (scenarioPage3, linkNoNext)
  else none

/-- The three-page chain of the mocked network. -/
def scenarioChain : List PageEntry :=
  [{ url := issuesUrl, issues := scenarioPage1, link := linkToPage2 },
   { url := urlPage2, issues := scenarioPage2, link := linkToPage3 },
   { url := urlPage3, issues := scenarioPage3, link := linkNoNext }]

/-- A single page mixing 5 plain issues with 10 PR-shaped entries. -/
def mixedPage : List Issue :=
  (List.range 5).map mkPlainIssue ++ (List.range 10).map (fun n => mkPR (5 + n))

/-- The 10 PR-shaped entries of `mixedPage`, in their original order. -/
def mixedPRs : List Issue := (List.range 10).map (fun n => mkPR (5 + n))

/-- A network serving only `mixedPage`, with an empty Link header. -/
def mixedNet : IssuesNet := fun url _ =>
  if url = issuesUrl then some (mixedPage, []) else none

/-- The version string `"9.9.0"`. -/
def v990 : List Char := ("9.9.0").data

/-- A changelog blob whose `"= 1.0 "` section is `"\nA\n"` before the next
`"= "` marker: the script returns the stripped `"A"`. -/
def c2blob : List Char := ("= 1.0 \nA\n= 2.0 x").data

/-- An environment answering the milestones request with HTTP 403. -/
def env403 : Env :=
  { tokenSet := true, milestonesStatus := 403, milestones := [],
    issuesNet := fun _ _ => none, descOf := fun _ => [], writeOk := true }

/-- An environment whose milestone list contains no title equal to
`"9.9.0"`. -/
def envNoMilestone : Env :=
  { tokenSet := true, milestonesStatus := 200,
    milestones := [{ title := ("9.8.0").data, number := 12 }],
    issuesNet := fun _ _ => none, descOf := fun _ => [], writeOk := true }

/-- An environment whose only title-matching milestone carries number 0. -/
def envZeroMilestone : Env :=
  { tokenSet := true, milestonesStatus := 200,
    milestones := [{ title := ("9.8.0").data, number := 12 },
                   { title := v990, number := 0 }],
    issuesNet := mixedNet, descOf := fun _ => [], writeOk := true }

/-- A working environment: milestone `"9.9.0"` is number 7, the issues
network serves `mixedPage`, descriptions are empty, the write succeeds. -/
def successEnv : Env :=
  { tokenSet := true, milestonesStatus := 200,
    milestones := [{ title := v990, number := 7 }],
    issuesNet := mixedNet, descOf := fun _ => [], writeOk := true }

/-- `successEnv` with a failing CSV write. -/
def failWriteEnv : Env :=
  { tokenSet := true, milestonesStatus := 200,
    milestones := [{ title := v990, number := 7 }],
    issuesNet := mixedNet, descOf := fun _ => [], writeOk := false }

/-- A changelog blob containing a `"= 9.9.0 "` section. -/
def blob990 : List Char := ("header\n= 9.9.0 \nfix one\n\n= 9.8.0 \nolder").data

/-- A web environment where the changelog blob holds the version section
but the CSV write fails. -/
def failWriteWeb : WebEnv :=
  { changelogStatus := 200, changelogText := blob990, gh := failWriteEnv }

/-- A web environment whose changelog blob lacks the `"= 9.9.0 "` marker,
with a working GitHub fallback. -/
def fallbackWeb : WebEnv :=
  { changelogStatus := 200, changelogText := ("= 1.0 \nA\n").data, gh := successEnv }

/-- The first row built from `mixedPage`'s PRs by `successEnv`. -/
def mixedRow0 : Row :=
  { ID := some 5, Title := [], Labels := [], URL := [], Description := [], Ranking := [] }

/-- The PR body of the specified concrete enricher example. -/
def c4body : List Char :=
  ("Changes proposed in this Pull Request:\nFix X\n\nHow to test the changes in this Pull Request:\nDo Y").data

/-- A response sequence: two 403 answers, then a 200 with an empty body. -/
def twice403Net (attempt : Nat) : HttpResponse :=
  if attempt < 2 then { status := 403, body := [] }
  else { status := 200, body := c4body }

/-- A response sequence of unbroken 403 answers. -/
def always403Net (_ : Nat) : HttpResponse := { status := 403, body := [] }

/-- A PR carrying labels `["plugin: woocommerce", "bug", "needs: testing"]`. -/
def labelIssue : Issue :=
  { number := 42
    title := ("Fix a bug").data
    html_url := ("https://github.com/woocommerce/woocommerce/pull/42").data
    labels := [{ name := ("plugin: woocommerce").data },
               { name := ("bug").data },
               { name := ("needs: testing").data }]
    pull_request := true }

/-- A PR whose filtered label differs in casing (`"Plugin: WooCommerce"`). -/
def labelIssueCased : Issue :=
  { number := 43
    title := ("Fix another bug").data
    html_url := ("https://github.com/woocommerce/woocommerce/pull/43").data
    labels := [{ name := ("Plugin: WooCommerce").data },
               { name := ("bug").data }]
    pull_request := true }

theorem findSub_isPrefixOf {pat s : List Char} {i : Nat}
    (h : findSub pat s = some i) : pat.isPrefixOf (s.drop i) = true := by
  induction s generalizing i with
  | nil =>
    simp only [findSub] at h
    by_cases hp : pat.isPrefixOf ([] : List Char)
    · simp [hp] at h; subst h; simpa using hp
    · simp [hp] at h
  | cons c t ih =>
    simp only [findSub] at h
    by_cases hp : pat.isPrefixOf (c :: t)
    · simp [hp] at h; subst h; simpa using hp
    · simp only [hp, if_neg, Bool.false_eq_true, if_false,
        Option.map_eq_some'] at h
      obtain ⟨j, hj, rfl⟩ := h
      simpa using ih hj

theorem findSub_min {pat s : List Char} {i : Nat}
    (h : findSub pat s = some i) :
    ∀ m, m < i → pat.isPrefixOf (s.drop m) = false := by
  induction s generalizing i with
  | nil =>
    simp only [findSub] at h
    by_cases hp : pat.isPrefixOf ([] : List Char)
    · simp [hp] at h; subst h; intro m hm; omega
    · simp [hp] at h
  | cons c t ih =>
    simp only [findSub] at h
    by_cases hp : pat.isPrefixOf (c :: t)
    · simp [hp] at h; subst h; intro m hm; omega
    · simp only [hp, if_neg, Bool.false_eq_true, if_false,
        Option.map_eq_some'] at h
      obtain ⟨j, hj, rfl⟩ := h
      intro m hm
      match m with
      | 0 => simp only [List.drop_zero, ← Bool.not_eq_true]; exact hp
      | m' + 1 =>
        have := ih hj m' (by omega)
        simpa using this

theorem findSub_none {pat s : List Char}
    (h : findSub pat s = none) :
    ∀ m, pat.isPrefixOf (s.drop m) = false := by
  induction s with
  | nil =>
    simp only [findSub] at h
    by_cases hp : pat.isPrefixOf ([] : List Char)
    · simp [hp] at h
    · intro m
      simp only [List.drop_nil, ← Bool.not_eq_true]
      exact hp
  | cons c t ih =>
    simp only [findSub] at h
    by_cases hp : pat.isPrefixOf (c :: t)
    · simp [hp] at h
    · simp only [hp, if_neg, Bool.false_eq_true, if_false,
        Option.map_eq_none'] at h
      intro m
      match m with
      | 0 => simp only [List.drop_zero, ← Bool.not_eq_true]; exact hp
      | m' + 1 => simpa using ih h m'

theorem findSub_eq_some_of {pat x : List Char} {j : Nat}
    (hocc : pat.isPrefixOf (x.drop j) = true)
    (hmin : ∀ m, m < j → pat.isPrefixOf (x.drop m) = false) :
    findSub pat x = some j := by
  match hf : findSub pat x with
  | none => exact absurd hocc (by simp [findSub_none hf j])
  | some i =>
    rcases Nat.lt_trichotomy i j with hlt | heq | hgt
    · exact absurd (findSub_isPrefixOf hf) (by simp [hmin i hlt])
    · rw [heq]
    · exact absurd hocc (by simp [findSub_min hf j hgt])

theorem findSub_le_length {pat s : List Char} {i : Nat}
    (h : findSub pat s = some i) : i ≤ s.length := by
  induction s generalizing i with
  | nil =>
    simp only [findSub] at h
    by_cases hp : pat.isPrefixOf ([] : List Char)
    · simp [hp] at h; omega
    · simp [hp] at h
  | cons c t ih =>
    simp only [findSub] at h
    by_cases hp : pat.isPrefixOf (c :: t)
    · simp [hp] at h; omega
    · simp only [hp, if_neg, Bool.false_eq_true, if_false,
        Option.map_eq_some'] at h
      obtain ⟨j, hj, rfl⟩ := h
      have := ih hj
      simp only [List.length_cons]
      omega

theorem findSub_bound {pat s : List Char} {i : Nat}
    (h : findSub pat s = some i) : i + pat.length ≤ s.length := by
  have hp := findSub_isPrefixOf h
  have hle : pat.length ≤ (s.drop i).length :=
    (List.isPrefixOf_iff_prefix.mp hp).length_le
  have hil := findSub_le_length h
  simp only [List.length_drop] at hle
  omega

theorem findSub_some_ne_nil {pat s : List Char} {i : Nat}
    (hsep : pat ≠ []) (h : findSub pat s = some i) : 1 ≤ s.length := by
  have := findSub_bound h
  have : 1 ≤ pat.length := by
    cases pat with
    | nil => exact absurd rfl hsep
    | cons a b => simp
  omega

/-- `pySplitF` does not depend on the fuel once the fuel covers `s.length`. -/
theorem pySplitF_congr {sep : List Char} (hsep : sep ≠ []) :
    ∀ fuel₁ fuel₂ s : _, s.length ≤ fuel₁ → s.length ≤ fuel₂ →
      pySplitF sep fuel₁ s = pySplitF sep fuel₂ s := by
  intro fuel₁
  induction fuel₁ with
  | zero =>
    intro fuel₂ s h1 h2
    have hs : s = [] := List.length_eq_zero.mp (by omega)
    subst hs
    have hf : findSub sep [] = none := by
      simp [findSub, List.isPrefixOf_iff_prefix, hsep,
        List.prefix_nil]
    cases fuel₂ with
    | zero => rfl
    | succ f => simp [pySplitF, hf]
  | succ f₁ ih =>
    intro fuel₂ s h1 h2
    match hf : findSub sep s with
    | none =>
      cases fuel₂ with
      | zero => simp [pySplitF, hf]
      | succ f₂ => simp [pySplitF, hf]
    | some i =>
      have hs1 : 1 ≤ s.length := findSub_some_ne_nil hsep hf
      cases fuel₂ with
      | zero => omega
      | succ f₂ =>
        have hlen : sep.length ≠ 0 := by
          cases sep with
          | nil => exact absurd rfl hsep
          | cons a b => simp
        have hdrop : (s.drop (i + sep.length)).length ≤ f₁ := by
          simp only [List.length_drop]; omega
        have hdrop2 : (s.drop (i + sep.length)).length ≤ f₂ := by
          simp only [List.length_drop]; omega
        simp only [pySplitF, hf, hlen, if_false]
        rw [ih f₂ _ hdrop hdrop2]

/-- Unfolding `pySplit` at an occurrence of the separator. -/
theorem pySplit_cons {sep s : List Char} {i : Nat} (hsep : sep ≠ [])
    (h : findSub sep s = some i) :
    pySplit sep s = s.take i :: pySplit sep (s.drop (i + sep.length)) := by
  have hs1 : 1 ≤ s.length := findSub_some_ne_nil hsep h
  have hlen : sep.length ≠ 0 := by
    cases sep with
    | nil => exact absurd rfl hsep
    | cons a b => simp
  unfold pySplit
  match hl : s.length with
  | 0 => omega
  | n + 1 =>
    simp only [pySplitF, h, hlen, if_false]
    have hdrop : (s.drop (i + sep.length)).length ≤ n := by
      have := findSub_bound h
      simp only [List.length_drop]; omega
    rw [pySplitF_congr hsep n _ _ hdrop (le_refl _)]

/-- `pySplit` when the separator does not occur. -/
theorem pySplit_of_none {sep s : List Char}
    (h : findSub sep s = none) : pySplit sep s = [s] := by
  unfold pySplit
  cases s.length with
  | zero => rfl
  | succ n => simp [pySplitF, h]

/-- The first element of a Python split: the text before the first
occurrence of the separator (or the whole text when absent). -/
theorem pySplit_head {sep s : List Char} (hsep : sep ≠ []) :
    (pySplit sep s).headD [] =
      (match findSub sep s with
       | none => s
       | some i => s.take i) := by
  match hf : findSub sep s with
  | none => simp [pySplit_of_none hf]
  | some i => simp [pySplit_cons hsep hf]

theorem pySplitF_ne_nil (sep : List Char) (fuel : Nat) (s : List Char) :
    pySplitF sep fuel s ≠ [] := by
  cases fuel with
  | zero => simp [pySplitF]
  | succ f =>
    cases hf : findSub sep s with
    | none => simp [pySplitF, hf]
    | some i =>
      by_cases hl : sep.length = 0 <;> simp [pySplitF, hf, hl]

theorem pySplit_length_ge_two {sep s : List Char} {i : Nat} (hsep : sep ≠ [])
    (h : findSub sep s = some i) : 2 ≤ (pySplit sep s).length := by
  rw [pySplit_cons hsep h]
  cases hrest : pySplit sep (s.drop (i + sep.length)) with
  | nil => exact absurd hrest (pySplitF_ne_nil sep _ _)
  | cons a l => simp

theorem pySplit_getD_one {sep s : List Char} {i : Nat} (hsep : sep ≠ [])
    (h : findSub sep s = some i) :
    (pySplit sep s).getD 1 [] =
      (pySplit sep (s.drop (i + sep.length))).headD [] := by
  rw [pySplit_cons hsep h]
  cases pySplit sep (s.drop (i + sep.length)) <;> rfl

/-- The first element of a Python split is the text before the first
occurrence of the separator. -/
theorem pySplit_headD_eq_takeUntil {sep : List Char} (s : List Char)
    (hsep : sep ≠ []) : (pySplit sep s).headD [] = takeUntilSub sep s := by
  rw [pySplit_head hsep]
  unfold takeUntilSub
  rfl

theorem eqSpace_prefix_versionMarker (version : List Char) :
    eqSpace <+: versionMarker version := by
  unfold versionMarker
  exact (List.prefix_append _ _).trans (List.prefix_append _ _)

/-- Cutting at the first `"= "` before or after cutting at the first
`"= {version} "` yields the same text, because every occurrence of the
version marker starts with `"= "` and the two markers cannot overlap at
distance one (`' ' ≠ '='`). -/
theorem takeUntil_pair (version t : List Char) :
    takeUntilSub eqSpace (takeUntilSub (versionMarker version) t) =
      takeUntilSub eqSpace t := by
  cases hk : findSub (versionMarker version) t with
  | none => rw [show takeUntilSub (versionMarker version) t = t by
      simp [takeUntilSub, hk]]
  | some k =>
    rw [show takeUntilSub (versionMarker version) t = t.take k by
      simp [takeUntilSub, hk]]
    have hvk : (versionMarker version).isPrefixOf (t.drop k) = true :=
      findSub_isPrefixOf hk
    have heqk : eqSpace.isPrefixOf (t.drop k) = true := by
      rw [List.isPrefixOf_iff_prefix] at hvk ⊢
      exact (eqSpace_prefix_versionMarker version).trans hvk
    obtain ⟨j, hj⟩ : ∃ j, findSub eqSpace t = some j := by
      cases hfe : findSub eqSpace t with
      | none => exact absurd heqk (by simp [findSub_none hfe k])
      | some j => exact ⟨j, rfl⟩
    have hjp : eqSpace.isPrefixOf (t.drop j) = true := findSub_isPrefixOf hj
    have hjk : j ≤ k := by
      by_contra hlt
      push_neg at hlt
      exact absurd heqk (by simp [findSub_min hj k hlt])
    rw [show takeUntilSub eqSpace t = t.take j by simp [takeUntilSub, hj]]
    by_cases hjeq : j = k
    · subst hjeq
      have hnone : findSub eqSpace (t.take j) = none := by
        cases hfe : findSub eqSpace (t.take j) with
        | none => rfl
        | some m =>
          exfalso
          have hm := findSub_isPrefixOf hfe
          rw [List.isPrefixOf_iff_prefix, List.drop_take] at hm
          have hmt : eqSpace <+: t.drop m := hm.trans (List.take_prefix _ _)
          have hlen : eqSpace.length ≤ j - m :=
            le_trans hm.length_le (by simp)
          have hmj : m < j := by simp [eqSpace] at hlen; omega
          have hmin := findSub_min hj m hmj
          rw [← Bool.not_eq_true, List.isPrefixOf_iff_prefix] at hmin
          exact hmin hmt
      simp [takeUntilSub, hnone]
    · have hjlt : j < k := lt_of_le_of_ne hjk hjeq
      have hj2 : j + 2 ≤ k := by
        by_contra hc
        push_neg at hc
        have hk1 : k = j + 1 := by omega
        rw [List.isPrefixOf_iff_prefix] at hjp hvk
        obtain ⟨r, hr⟩ := hjp
        have hdj : t.drop (j + 1) = ' ' :: r := by
          have hdd : t.drop (j + 1) = (t.drop j).drop 1 := by
            rw [List.drop_drop, Nat.add_comm]
          rw [hdd, ← hr]
          rfl
        obtain ⟨r2, hr2⟩ := hvk
        rw [hk1, hdj] at hr2
        simp [versionMarker, eqSpace] at hr2
      have hfk : findSub eqSpace (t.take k) = some j := by
        apply findSub_eq_some_of
        · rw [List.isPrefixOf_iff_prefix, List.drop_take, List.prefix_take_iff]
          refine ⟨List.isPrefixOf_iff_prefix.mp hjp, ?_⟩
          simp [eqSpace]
          omega
        · intro m hm
          rw [← Bool.not_eq_true, List.isPrefixOf_iff_prefix, List.drop_take]
          intro hb
          have hmt : eqSpace <+: t.drop m := hb.trans (List.take_prefix _ _)
          have hmin := findSub_min hj m hm
          rw [← Bool.not_eq_true, List.isPrefixOf_iff_prefix] at hmin
          exact hmin hmt
      simp only [takeUntilSub, hfk, List.take_take]
      rw [Nat.min_eq_left hjk]

/-- The located section is the stripped text between the first occurrence
of the version marker and the next `"= "` occurrence. -/
theorem locate_found_eq (version content : List Char)
    (h : containsSub (versionMarker version) content = true) :
    locate_version_section version content =
      .found (pyStrip (sectionAfterMarker version content)) := by
  obtain ⟨i, hf⟩ : ∃ i, findSub (versionMarker version) content = some i := by
    unfold containsSub at h
    exact Option.isSome_iff_exists.mp h
  have hvm : versionMarker version ≠ [] := by simp [versionMarker, eqSpace]
  unfold locate_version_section
  rw [h]
  simp only [Bool.not_true, Bool.false_eq_true, if_false]
  have hlen := pySplit_length_ge_two hvm hf
  rw [if_neg (by omega)]
  have hsec : sectionAfterMarker version content =
      takeUntilSub eqSpace (content.drop (i + (versionMarker version).length)) := by
    simp [sectionAfterMarker, hf, takeUntilSub]
  rw [hsec, pySplit_getD_one hvm hf,
    pySplit_headD_eq_takeUntil _ hvm,
    pySplit_headD_eq_takeUntil _ (by simp [eqSpace] : eqSpace ≠ []),
    takeUntil_pair]

/-- A page with zero issues stops the loop with the accumulator. -/
theorem collect_loop_stop_empty {net : IssuesNet} {url link : List Char}
    {ps : Option ReqParams} {acc : List Issue} (fuel : Nat)
    (h1 : net url ps = some ([], link)) :
    collect_loop net (fuel + 1) url ps acc = some (some acc) := by
  simp [collect_loop, h1]

/-- A non-empty page whose Link header yields no (or an empty) next URL
stops the loop after appending the page's PR-shaped entries. -/
theorem collect_loop_stop_no_next {net : IssuesNet} {url link : List Char}
    {ps : Option ReqParams} {acc issues : List Issue} (fuel : Nat)
    (h1 : net url ps = some (issues, link)) (h2 : issues ≠ [])
    (h3 : parse_next_url link = none ∨ parse_next_url link = some []) :
    collect_loop net (fuel + 1) url ps acc =
      some (some (acc ++ issues.filter (fun i => i.pull_request))) := by
  rcases h3 with h3 | h3 <;> simp [collect_loop, h1, h2, h3]

/-- A non-empty page with a next URL appends its PR-shaped entries and
continues at that URL with cleared query parameters. -/
theorem collect_loop_step {net : IssuesNet} {url u link : List Char}
    {ps : Option ReqParams} {acc issues : List Issue} (fuel : Nat)
    (h1 : net url ps = some (issues, link)) (h2 : issues ≠ [])
    (h3 : parse_next_url link = some u) (h4 : u ≠ []) :
    collect_loop net (fuel + 1) url ps acc =
      collect_loop net fuel u none (acc ++ issues.filter (fun i => i.pull_request)) := by
  simp [collect_loop, h1, h2, h3, h4]

/-- Running the pagination loop over a well-formed page chain accumulates
the PR-shaped entries of every page, in page order, and stops. -/
theorem collect_loop_chain (net : IssuesNet) :
    ∀ (ch : List PageEntry) (ps : Option ReqParams) (fuel : Nat)
      (acc : List Issue),
      chainOk net ps ch = true → ch.length ≤ fuel →
      collect_loop net fuel ((ch.headD ⟨[], [], []⟩).url) ps acc =
        some (some (acc ++
          (ch.map (fun e => e.issues.filter (fun i => i.pull_request))).flatten)) := by
  intro ch
  induction ch with
  | nil => intro ps fuel acc h _; simp [chainOk] at h
  | cons e rest ih =>
    intro ps fuel acc h hf
    cases fuel with
    | zero => simp at hf
    | succ f =>
      cases rest with
      | nil =>
        simp only [chainOk, Bool.and_eq_true, decide_eq_true_eq,
          Bool.or_eq_true] at h
        obtain ⟨h1, h2⟩ := h
        by_cases he : e.issues = []
        · rw [List.headD_cons, collect_loop_stop_empty f (he ▸ h1)]
          simp [he]
        · have hparse : parse_next_url e.link = none ∨
              parse_next_url e.link = some [] := by
            rcases h2 with (h2 | h2) | h2
            · exact absurd (List.isEmpty_iff.mp h2) he
            · exact Or.inl h2
            · exact Or.inr h2
          rw [List.headD_cons, collect_loop_stop_no_next f h1 he hparse]
          simp
      | cons e2 rest2 =>
        simp only [chainOk, Bool.and_eq_true, decide_eq_true_eq,
          Bool.not_eq_true'] at h
        obtain ⟨⟨⟨⟨h1, h2⟩, h3⟩, h4⟩, h5⟩ := h
        have he : e.issues ≠ [] := fun hc => by rw [hc] at h2; simp at h2
        have hu : e2.url ≠ [] := fun hc => by rw [hc] at h4; simp at h4
        rw [List.headD_cons, collect_loop_step f h1 he h3 hu]
        have hrec := ih none f (acc ++ e.issues.filter (fun i => i.pull_request))
          h5 (by simp only [List.length_cons] at hf ⊢; omega)
        simp only [List.headD_cons] at hrec
        rw [hrec]
        simp

/-- With `k` leading 403 responses and a non-403 response at attempt `k`,
the description fetch finishes within any fuel above `k`, having slept 60
seconds per 403 response, and returns the extracted section on a 200 (the
empty string otherwise). -/
theorem fetch_pr_description_eventually (net : Nat → HttpResponse) :
    ∀ (k s fuel : Nat), k < fuel →
      (∀ j, j < k → (net (s + j)).status = 403) →
      (net (s + k)).status ≠ 403 →
      fetch_pr_description net s fuel =
        some ((if (net (s + k)).status = 200
               then extract_changes_section (net (s + k)).body else []),
              60 * k) := by
  intro k
  induction k with
  | zero =>
    intro s fuel hf _ hne
    cases fuel with
    | zero => omega
    | succ f =>
      simp only [Nat.add_zero] at hne ⊢
      by_cases h200 : (net s).status = 200
      · simp [fetch_pr_description, h200]
      · simp [fetch_pr_description, h200, hne]
  | succ k ih =>
    intro s fuel hf h403 hne
    cases fuel with
    | zero => omega
    | succ f =>
      have h0 : (net s).status = 403 := by
        have h := h403 0 (by omega)
        simpa using h
      have hshift : s + (k + 1) = s + 1 + k := by omega
      have hstep : fetch_pr_description net s (f + 1) =
          (fetch_pr_description net (s + 1) f).map (fun p => (p.1, 60 + p.2)) := by
        simp [fetch_pr_description, h0]
      rw [hstep]
      have hrec := ih (s + 1) f (by omega)
        (fun j hj => by
          have h := h403 (j + 1) (by omega)
          have e : s + (j + 1) = s + 1 + j := by omega
          rw [e] at h
          exact h)
        (by rw [← hshift]; exact hne)
      rw [hrec]
      simp only [Option.map_some']
      rw [hshift]
      have e2 : 60 * (k + 1) = 60 + 60 * k := by ring
      rw [e2]

/-- On an unbroken sequence of 403 responses the retry recursion never
finishes, whatever the attempt budget. -/
theorem fetch_pr_description_never (net : Nat → HttpResponse)
    (h403 : ∀ j, (net j).status = 403) :
    ∀ (fuel s : Nat), fetch_pr_description net s fuel = none := by
  intro fuel
  induction fuel with
  | zero => intro s; rfl
  | succ f ih =>
    intro s
    simp [fetch_pr_description, h403 s, ih (s + 1)]

/-- Every row built by `format_prs_as_changelog` has an empty Ranking. -/
theorem format_ranking (descOf : Nat → List Char) (prs : List Issue) :
    ∀ r ∈ format_prs_as_changelog descOf prs, r.Ranking = [] := by
  intro r hr
  simp only [format_prs_as_changelog, List.mem_map] at hr
  obtain ⟨pr, _, rfl⟩ := hr
  rfl

/-- Filtering labels then reading their names equals reading names then
filtering on the names. -/
theorem labels_filter_map (ls : List Label) :
    (ls.filter (fun l => !(pyLower l.name == pluginLabelName))).map Label.name =
      (ls.map Label.name).filter (fun s => !(pyLower s == pluginLabelName)) := by
  induction ls with
  | nil => rfl
  | cons a t ih =>
    by_cases h : (pyLower a.name == pluginLabelName) = true <;>
      simp [List.filter_cons, h, ih]

/-- Rows written on the GitHub-API path all carry an empty Ranking. -/
theorem prs_written_ranking (env : Env) (fuel : Nat) (version : List Char)
    (b : Bool) (rows : List Row)
    (h : fetch_prs_from_github env fuel version = some (b, some rows)) :
    ∀ r ∈ rows, r.Ranking = [] := by
  rw [fetch_prs_from_github] at h
  split at h
  · simp at h
  split at h
  · simp at h
  split at h
  · simp at h
  split at h
  · simp at h
  split at h
  · simp at h
  rw [fetch_prs_with_milestone] at h
  split at h
  · simp at h
  · simp at h
  · split at h
    · simp at h
    · unfold save_changelog at h
      split at h
      · simp only [save_changelog_rows, Option.some_inj, Prod.mk.injEq] at h
        obtain ⟨-, h⟩ := h
        subst h
        exact format_ranking env.descOf _
      · simp at h

/-- Rows written by `fetch_changelog` all carry an empty Ranking. -/
theorem changelog_written_ranking (web : WebEnv) (fuel : Nat)
    (version : List Char) (b : Bool) (rows : List Row)
    (h : fetch_changelog web fuel version = some (b, some rows)) :
    ∀ r ∈ rows, r.Ranking = [] := by
  rw [fetch_changelog] at h
  split at h
  · simp at h
  split at h
  · exact prs_written_ranking _ _ _ _ _ h
  · simp at h
  · unfold save_changelog at h
    split at h
    · simp only [save_changelog_rows, Option.some_inj, Prod.mk.injEq] at h
      obtain ⟨-, h⟩ := h
      subst h
      intro r hr
      simp only [List.mem_singleton] at hr
      subst hr
      rfl
    · simp at h

/-! ## Claim theorems -/

/-- Claim C1: the claim states that a failed write surfaces as failure of
the enclosing pipeline function.  The code contradicts this: with a failing
persister, `save_changelog` itself returns `False` (first conjunct), yet
both `fetch_changelog` (line 45-46) and `fetch_prs_from_github`
(line 147-148) discard that value and return `True`, with nothing written
(second and third conjuncts). -/
theorem c1_write_failure_not_surfaced :
    save_changelog false v990 (.text (("fix one").data)) = (false, none) ∧
    fetch_changelog failWriteWeb 5 v990 = some (true, none) ∧
    fetch_prs_from_github failWriteEnv 5 v990 = some (true, none) := by
  decide

/-- Claim C2 (amended): for every blob containing the marker
`"= {version} "`, the locator returns the text between the end of the first
occurrence of that marker and the next `"= "` occurrence (or end of text),
stripped of leading and trailing whitespace — the `.strip()` on line 42
removes boundary whitespace, so the raw in-between text is not returned
verbatim. -/
theorem c2_version_section_locator (version content : List Char)
    (h : containsSub (versionMarker version) content = true) :
    locate_version_section version content =
      .found (pyStrip (sectionAfterMarker version content)) :=
  locate_found_eq version content h

/-- Claim C2, counterexample to the claim as stated: in
`"= 1.0 \nA\n= 2.0 x"` the text between the `"= 1.0 "` marker and the next
`"= "` is `"\nA\n"`, but the locator returns the stripped `"A"`, so the
surrounding newlines of the section are lost. -/
theorem c2_counterexample :
    containsSub (versionMarker (("1.0").data)) c2blob = true ∧
    sectionAfterMarker (("1.0").data) c2blob = ("\nA\n").data ∧
    locate_version_section (("1.0").data) c2blob = .found (("A").data) ∧
    LocateResult.found (("A").data) ≠ .found (("\nA\n").data) := by
  decide

/-- Claim C2, witness: the amended statement applied to the `"2.0"` section
of the same blob. -/
theorem c2_witness :
    locate_version_section (("2.0").data) c2blob =
      .found (pyStrip (sectionAfterMarker (("2.0").data) c2blob)) :=
  c2_version_section_locator (("2.0").data) c2blob (by decide)

/-- Claim C3: the pagination loop follows the `rel="next"` URL of each Link
header, appends exactly the `'pull_request'`-marked entries of every page
in the order the pages deliver them, and stops on an empty page or a
missing next relation (first conjunct, over every well-formed page chain);
on mocked pages of sizes [100, 100, 37] it returns the 237 entries in their
original order, and on a page mixing 5 plain issues with 10 PRs it keeps
exactly the 10 PRs. -/
theorem c3_pull_request_collector :
    (∀ (net : IssuesNet) (ch : List PageEntry) (ps : Option ReqParams)
        (fuel : Nat) (acc : List Issue),
        chainOk net ps ch = true → ch.length ≤ fuel →
        collect_loop net fuel ((ch.headD ⟨[], [], []⟩).url) ps acc =
          some (some (acc ++
            (ch.map (fun e => e.issues.filter (fun i => i.pull_request))).flatten))) ∧
    collect_loop scenarioNet 5 issuesUrl (some (initialParams 7)) [] =
      some (some (scenarioPage1 ++ scenarioPage2 ++ scenarioPage3)) ∧
    (scenarioPage1 ++ scenarioPage2 ++ scenarioPage3).length = 237 ∧
    collect_loop mixedNet 5 issuesUrl (some (initialParams 7)) [] =
      some (some mixedPRs) :=
  ⟨fun net ch ps fuel acc h hf => collect_loop_chain net ch ps fuel acc h hf,
   by decide, by decide, by decide⟩

/-- Claim C3, witness: the chain statement applied to the concrete
three-page network. -/
theorem c3_witness :
    collect_loop scenarioNet 3 (scenarioChain.headD ⟨[], [], []⟩).url
        (some (initialParams 7)) [] =
      some (some (([] : List Issue) ++
        (scenarioChain.map (fun e => e.issues.filter (fun i => i.pull_request))).flatten)) :=
  c3_pull_request_collector.1 scenarioNet scenarioChain (some (initialParams 7))
    3 [] (by decide) (by decide)

/-- Claim C4: the enricher returns, after HTML-tag stripping and entity
unescaping, the cleaned span between the `"Changes proposed"` marker and
the `"How to test"` marker (or end of text), with blank and
comment-delimiter lines dropped (first conjunct); the concrete body yields
`"Fix X"`; an absent start marker, or an empty body, yields the empty
string without error. -/
theorem c4_changes_extraction :
    (∀ body : List Char,
        extract_changes_section body =
          (match afterSub changesMarker (unescapeHtml (stripTags body)) with
           | none => []
           | some t => cleanChangeLines (takeUntilSub howToMarker t))) ∧
    extract_changes_section c4body = ("Fix X").data ∧
    (∀ body : List Char,
        containsSub changesMarker (unescapeHtml (stripTags body)) = false →
        extract_changes_section body = []) ∧
    extract_changes_section [] = [] := by
  refine ⟨?_, by decide, ?_, by decide⟩
  · intro body
    by_cases hb : body = []
    · subst hb; decide
    · cases hf : findSub changesMarker (unescapeHtml (stripTags body)) with
      | none => simp [extract_changes_section, hb, afterSub, hf]
      | some i =>
        simp [extract_changes_section, hb, afterSub, hf, cleanChangeLines,
          takeUntilSub]
  · intro body hcon
    have hf : findSub changesMarker (unescapeHtml (stripTags body)) = none := by
      unfold containsSub at hcon
      exact Option.not_isSome_iff_eq_none.mp (by simp [hcon])
    by_cases hb : body = []
    · subst hb; rfl
    · simp [extract_changes_section, hb, hf]

/-- Claim C4, witness: the marker-absent conjunct applied to a concrete
unstructured body. -/
theorem c4_witness :
    extract_changes_section (("just a short description").data) = [] :=
  c4_changes_extraction.2.2.1 (("just a short description").data) (by decide)

/-- Claim C5 (amended): on HTTP 403 the milestone resolution aborts with
the failure indicator `False`, and with no title-matching milestone it also
returns `False`; the returned result is identical in the two cases, so a
caller observing only the result cannot distinguish them (the difference
exists only in the printed messages of lines 72 and 86). -/
theorem c5_rate_limit_same_result (env : Env) (fuel : Nat) (version : List Char) :
    (env.tokenSet = true → env.milestonesStatus = 403 →
      fetch_prs_from_github env fuel version = some (false, none)) ∧
    (env.tokenSet = true → env.milestonesStatus < 400 →
      env.milestones.find? (fun m => m.title == version) = none →
      fetch_prs_from_github env fuel version = some (false, none)) := by
  constructor
  · intro ht h403
    simp [fetch_prs_from_github, ht, h403]
  · intro ht hlt hfind
    have hne : ¬ env.milestonesStatus = 403 := by omega
    have hge : ¬ 400 ≤ env.milestonesStatus := by omega
    simp [fetch_prs_from_github, ht, hne, hge, hfind]

/-- Claim C5, counterexample to the claim as stated: a 403 answer and a
milestone list without the requested title produce the very same function
result, so the two outcomes are not distinct to a caller observing only
the result. -/
theorem c5_counterexample :
    fetch_prs_from_github env403 1 v990 =
      fetch_prs_from_github envNoMilestone 1 v990 := by
  decide

/-- Claim C5, witness: both amended conjuncts at concrete environments. -/
theorem c5_witness :
    fetch_prs_from_github env403 1 v990 = some (false, none) ∧
    fetch_prs_from_github envNoMilestone 1 v990 = some (false, none) :=
  ⟨(c5_rate_limit_same_result env403 1 v990).1 (by decide) (by decide),
   (c5_rate_limit_same_result envNoMilestone 1 v990).2 (by decide) (by decide)
     (by decide)⟩

/-- Claim C6: when the version marker is absent from the changelog blob the
locator signals NotFound, and `fetch_changelog` proceeds exactly as the
API-based fallback `fetch_prs_from_github` — no exception escapes, the
result is the fallback's result. -/
theorem c6_absent_marker_falls_back (web : WebEnv) (fuel : Nat)
    (version : List Char) (hstatus : web.changelogStatus < 400)
    (habs : containsSub (versionMarker version) web.changelogText = false) :
    locate_version_section version web.changelogText = .notFound ∧
    fetch_changelog web fuel version = fetch_prs_from_github web.gh fuel version := by
  have hloc : locate_version_section version web.changelogText = .notFound := by
    simp [locate_version_section, habs]
  refine ⟨hloc, ?_⟩
  have hge : ¬ 400 ≤ web.changelogStatus := by omega
  simp [fetch_changelog, hge, hloc]

/-- Claim C6, witness: the fallback equation at a concrete blob lacking the
`"= 9.9.0 "` marker. -/
theorem c6_witness :
    locate_version_section v990 fallbackWeb.changelogText = .notFound ∧
    fetch_changelog fallbackWeb 5 v990 =
      fetch_prs_from_github fallbackWeb.gh 5 v990 :=
  c6_absent_marker_falls_back fallbackWeb 5 v990 (by decide) (by decide)

/-- Claim C7: the label filter removes exactly the labels whose
case-insensitive value equals `"plugin: woocommerce"` and joins the
survivors with `", "` in their original order and casing (first conjunct);
`["plugin: woocommerce", "bug", "needs: testing"]` yields
`"bug, needs: testing"`, and the differently-cased `"Plugin: WooCommerce"`
is removed as well. -/
theorem c7_label_filter :
    (∀ (descOf : Nat → List Char) (prs : List Issue),
        (format_prs_as_changelog descOf prs).map Row.Labels =
          prs.map (fun pr => List.intercalate commaSpace
            ((pr.labels.map Label.name).filter
              (fun s => !(pyLower s == pluginLabelName))))) ∧
    (format_prs_as_changelog (fun _ => []) [labelIssue, labelIssueCased]).map
        Row.Labels =
      [("bug, needs: testing").data, ("bug").data] := by
  refine ⟨?_, by decide⟩
  intro descOf prs
  simp only [format_prs_as_changelog, List.map_map]
  congr 1
  funext pr
  simp [Function.comp, labels_filter_map]

/-- Claim C8: on each 403 response the description fetch sleeps 60 seconds
and re-issues the same request once; it finishes for every response
sequence whose `k`-th answer is the first non-403 (having slept `60 * k`
seconds, and returning the extracted section on a 200, the empty string on
any other status), and it never finishes — whatever the attempt budget —
on a sequence of unbroken 403 responses. -/
theorem c8_rate_limit_retry :
    (∀ (net : Nat → HttpResponse) (k fuel : Nat),
        k < fuel → (∀ j, j < k → (net j).status = 403) →
        (net k).status ≠ 403 →
        fetch_pr_description net 0 fuel =
          some ((if (net k).status = 200
                 then extract_changes_section (net k).body else []), 60 * k)) ∧
    (∀ net : Nat → HttpResponse, (∀ j, (net j).status = 403) →
        ∀ fuel, fetch_pr_description net 0 fuel = none) := by
  constructor
  · intro net k fuel hf h403 hne
    have h := fetch_pr_description_eventually net k 0 fuel hf
      (fun j hj => by simpa using h403 j hj) (by simpa using hne)
    simpa using h
  · intro net h403 fuel
    exact fetch_pr_description_never net h403 fuel 0

/-- Claim C8, witness: two 403 responses followed by a 200 finish with 120
seconds slept; unbroken 403 responses never finish. -/
theorem c8_witness :
    fetch_pr_description twice403Net 0 3 =
      some (extract_changes_section c4body, 120) ∧
    fetch_pr_description always403Net 0 5 = none := by
  constructor
  · have h := c8_rate_limit_retry.1 twice403Net 2 3 (by omega)
      (fun j hj => by interval_cases j <;> rfl) (by decide)
    exact h.trans (by decide)
  · exact c8_rate_limit_retry.2 always403Net (fun _ => rfl) 5

/-- Claim C9: every row reaching the CSV writer — on the PR path as well as
on the raw-changelog fallback path — has an empty Ranking field. -/
theorem c9_ranking_always_empty :
    (∀ (web : WebEnv) (fuel : Nat) (version : List Char) (b : Bool)
        (rows : List Row),
        fetch_changelog web fuel version = some (b, some rows) →
        ∀ r ∈ rows, r.Ranking = []) ∧
    (∀ (env : Env) (fuel : Nat) (version : List Char) (b : Bool)
        (rows : List Row),
        fetch_prs_from_github env fuel version = some (b, some rows) →
        ∀ r ∈ rows, r.Ranking = []) :=
  ⟨fun web fuel version b rows h => changelog_written_ranking web fuel version b rows h,
   fun env fuel version b rows h => prs_written_ranking env fuel version b rows h⟩

/-- Claim C9, witness: the PR-path statement applied to a concrete
successful run and its first written row. -/
theorem c9_witness :
    mixedRow0.Ranking = [] ∧
    fetch_prs_from_github successEnv 5 v990 =
      some (true, some (format_prs_as_changelog (fun _ => []) mixedPRs)) :=
  ⟨c9_ranking_always_empty.2 successEnv 5 v990 true
      (format_prs_as_changelog (fun _ => []) mixedPRs) (by decide) mixedRow0
      (by decide),
   by decide⟩

/-- Claim C10: milestone resolution takes the first milestone, in API
order, whose title equals the version string (so a title-equal milestone
exists whenever `find?` succeeds); when that milestone's number is 0 the
truthiness test `if not milestone_number` (line 85) sends the run down the
NotFound branch even though a title-equal milestone exists, and when the
number is non-zero the run continues with exactly that number. -/
theorem c10_zero_milestone_number (env : Env) (fuel : Nat)
    (version : List Char) (m : Milestone) (htok : env.tokenSet = true)
    (hst : env.milestonesStatus = 200)
    (hfind : env.milestones.find? (fun x => x.title == version) = some m) :
    (∃ ms ∈ env.milestones, ms.title = version) ∧
    (m.number = 0 → fetch_prs_from_github env fuel version = some (false, none)) ∧
    (m.number ≠ 0 → fetch_prs_from_github env fuel version =
        fetch_prs_with_milestone env fuel version m.number) := by
  have hmem : m ∈ env.milestones := List.mem_of_find?_eq_some hfind
  have htitle : m.title = version := by
    have h := List.find?_some hfind
    simpa using h
  refine ⟨⟨m, hmem, htitle⟩, ?_, ?_⟩
  · intro h0
    simp [fetch_prs_from_github, htok, hst, hfind, h0]
  · intro h0
    simp [fetch_prs_from_github, htok, hst, hfind, h0]

/-- Claim C10, witness: a milestone list whose only `"9.9.0"` milestone
carries number 0 makes the run fail as NotFound although the milestone is
present. -/
theorem c10_witness :
    (∃ ms ∈ envZeroMilestone.milestones, ms.title = v990) ∧
    fetch_prs_from_github envZeroMilestone 5 v990 = some (false, none) := by
  have h := c10_zero_milestone_number envZeroMilestone 5 v990
    { title := v990, number := 0 } (by decide) (by decide) (by decide)
  exact ⟨h.1, h.2.1 rfl⟩

end FetchChangelog
